import Mathlib

/-!
# Verification of the pyNeuroML SWC ⇄ NeuroML structural converter

This file is a shallow embedding, in Lean 4, of the two converter components of
the repository:

* `pyneuroml/swc/ExportNML.py` — `NeuroMLWriter`, which turns an SWC point
  graph into a segment/segment-group morphology model, and
* `pyneuroml/swc/ExportSWC.py` — `convert_to_swc` and
  `_get_lines_for_seg_group`, which flatten such a model back into SWC lines.

Numeric SWC fields (coordinates, radii, attachment fractions) are embedded as
rational numbers.  Because several `Rat` operations in the ambient library are
`@[irreducible]`, the embedding uses small executable `mkRat`-based helpers
(`twice`, `half`, `rsub`, `rabs`) for the only arithmetic the source performs
(doubling a radius into a diameter, halving a diameter back into a radius, and
the attachment-fraction tolerance test); lemmas `twice_eq`, `half_eq`,
`rsub_eq` and `rabs_eq` identify them with the ordinary operations.

Python dictionaries keyed by integers are embedded as association lists with
most-recent-first lookup, the `segment_groups` dictionary (whose six keys are
fixed at construction time) as a function from names to member lists, Python
sets of visited ids as lists queried only through membership, and the
depth-first traversal as a fuel-indexed recursion (the fuel only bounds the
recursion depth; `runBuild` supplies enough for every actual tree).
-/

namespace SwcNeuroml

/-! ## Executable rational helpers -/

/-- Doubling of a rational (`2 * r`, used for `diameter=2*point.radius`). -/
def twice (q : Rat) : Rat := mkRat (2 * q.num) q.den

/-- Halving of a rational (`d / 2.0`, used for `r = diameter/2.0` on export). -/
def half (q : Rat) : Rat := mkRat q.num (2 * q.den)

/-- Subtraction of rationals in executable form. -/
def rsub (a b : Rat) : Rat := mkRat (a.num * b.den - b.num * a.den) (a.den * b.den)

/-- Absolute value of a rational in executable form. -/
def rabs (q : Rat) : Rat := mkRat q.num.natAbs q.den

/-! ## Data model: SWC point nodes and graphs (`LoadSWC.SWCNode`, `SWCGraph`) -/

/-- One SWC point record: id, type code, position, radius, parent id
(`-1` denotes a root). -/
structure SWCNode where
  id : Nat
  type : Nat
  x : Rat
  y : Rat
  z : Rat
  radius : Rat
  parent_id : Int
deriving DecidableEq

/-- Type code `SWCNode.SOMA`. -/
def SOMA : Nat := 1

/-- Type code `SWCNode.AXON`. -/
def AXON : Nat := 2

/-- Type code `SWCNode.BASAL_DENDRITE`. -/
def BASAL_DENDRITE : Nat := 3

/-- Type code `SWCNode.APICAL_DENDRITE`. -/
def APICAL_DENDRITE : Nat := 4

/-- The SWC graph: the loader's node list, in file order. -/
structure SWCGraph where
  nodes : List SWCNode
deriving DecidableEq

/-- Modelled from the spec: `LoadSWC` (whose source is not in scope) maintains,
for every node, the ordered list of its children — "a derived child-adjacency
mapping (parent id → ordered list of child node references)", ordered by
declaration order in the file. -/
def SWCGraph.children (g : SWCGraph) (n : SWCNode) : List SWCNode :=
  g.nodes.filter (fun c => c.parent_id = (n.id : Int))

/-- Placeholder node (Python raises `IndexError` where this default appears). -/
def dfltNode : SWCNode := ⟨0, 0, 0, 0, 0, 0, -1⟩

/-! ## Data model: segments (the external NeuroML object model's `Segment`) -/

/-- A 3D point with diameter, as stored on a segment. -/
structure Point3DWithDiam where
  x : Rat
  y : Rat
  z : Rat
  diameter : Rat
deriving DecidableEq

/-- The construction `Point3DWithDiam(x=p.x, y=p.y, z=p.z, diameter=2*p.radius)`,
construction pattern used at every site of `ExportNML.py`. -/
def pointOf (p : SWCNode) : Point3DWithDiam := ⟨p.x, p.y, p.z, twice p.radius⟩

/-- A NeuroML segment as the writer builds it: sequential id, name, optional
proximal point, optional distal point, optional parent segment id. -/
structure Segment where
  id : Nat
  name : String
  proximal : Option Point3DWithDiam := none
  distal : Option Point3DWithDiam := none
  parent : Option Nat := none
deriving DecidableEq

/-- Placeholder segment for `getD`-style indexing in statements. -/
def dfltSeg : Segment := ⟨0, "", none, none, none⟩

/-! ## The builder state (`NeuroMLWriter` mutable fields) -/

/-- The six group names fixed in `NeuroMLWriter.__init__`, in insertion order. -/
def groupNames : List String :=
  ["all", "soma_group", "axon_group", "dendrite_group", "basal_dendrite",
   "apical_dendrite"]

/-- The list `self.section_types` from `NeuroMLWriter.__init__`. -/
def sectionTypes : List String :=
  ["undefined", "soma", "axon", "basal dendrite", "apical dendrite"]

/-- The mutable state of `NeuroMLWriter` during one conversion:
the cell's segment list, the point-id → segment-id map, the next sequential
segment id, the set of processed node ids, the segment-id → SWC-type map, and
the segment groups (a dictionary with the six fixed keys of `groupNames`,
embedded as a membership function). -/
structure Builder where
  segments : List Segment
  point_indices_vs_seg_ids : List (Nat × Nat)
  next_segment_id : Nat
  processed_nodes : List Nat
  segment_types : List (Nat × Nat)
  segment_groups : String → List Nat

/-- The writer's initial state. -/
def initBuilder : Builder := ⟨[], [], 0, [], [], fun _ => []⟩

/-- Set-insertion into the processed-node set. -/
def insertProcessed (i : Nat) (l : List Nat) : List Nat :=
  if i ∈ l then l else i :: l

/-- Embedding of `NeuroMLWriter.get_groups_for_type`. -/
def get_groups_for_type (segment_type : Nat) : List String :=
  ["all"] ++
    (if segment_type = SOMA then ["soma_group"]
     else if segment_type = AXON then ["axon_group"]
     else if segment_type = BASAL_DENDRITE then ["basal_dendrite", "dendrite_group"]
     else if segment_type = APICAL_DENDRITE then ["apical_dendrite", "dendrite_group"]
     else if 5 ≤ segment_type then ["dendrite_group"]
     else [])

/-- Embedding of `NeuroMLWriter.add_segment_to_groups`: add `seg_id` to every group its
type qualifies for. -/
def add_segment_to_groups (seg_id segment_type : Nat) (gs : String → List Nat) :
    String → List Nat :=
  fun gname =>
    if gname ∈ get_groups_for_type segment_type then gs gname ++ [seg_id]
    else gs gname

/-- The registration block repeated at every segment-emission site of
`ExportNML.py`: append the segment, record the point-id → segment-id mapping,
record the segment's SWC type, add it to its groups, and advance the id
counter.  The caller constructs `seg` with `seg.id = next_segment_id`. -/
def registerSegment (st : Builder) (seg : Segment) (point_id t : Nat) : Builder :=
  { segments := st.segments ++ [seg]
    point_indices_vs_seg_ids :=
      (point_id, st.next_segment_id) :: st.point_indices_vs_seg_ids
    next_segment_id := st.next_segment_id + 1
    processed_nodes := st.processed_nodes
    segment_types := (st.next_segment_id, t) :: st.segment_types
    segment_groups :=
      add_segment_to_groups st.next_segment_id t st.segment_groups }

/-! ## The soma-case handler (`NeuroMLWriter.handle_soma`) -/

/-- Segment names `f"Seg_{id}"` (three-point-soma case). -/
def segName (n : Nat) : String := "Seg_" ++ toString n

/-- Segment names `f"soma_Seg_{id}"` (single-point and multi-point cases). -/
def somaSegName (n : Nat) : String := "soma_Seg_" ++ toString n

/-- The soma nodes of the whole tree, in file order
(`[p for p in self.points if p.type == SWCNode.SOMA]`). -/
def somaPoints (g : SWCGraph) : List SWCNode :=
  g.nodes.filter (fun p => p.type = SOMA)

/-- One iteration of the multi-point soma loop
(`for i, current_point in enumerate(sorted_soma_points): ...`). -/
def somaChainStep (sorted_soma_points : List SWCNode) (st : Builder)
    (icp : Nat × SWCNode) : Builder :=
  if icp.2.id ∈ st.processed_nodes then st
  else
    let seg : Segment :=
      { id := st.next_segment_id
        name := somaSegName st.next_segment_id
        proximal := if icp.1 = 0 then some (pointOf icp.2) else none
        distal :=
          if icp.1 < sorted_soma_points.length - 1 then
            some (pointOf (sorted_soma_points.getD (icp.1 + 1) icp.2))
          else some (pointOf icp.2)
        parent := if icp.1 = 0 then none else some (st.next_segment_id - 1) }
    let st1 := registerSegment st seg icp.2.id SOMA
    { st1 with processed_nodes := insertProcessed icp.2.id st1.processed_nodes }

/-- The whole multi-point soma loop. -/
def somaChain (sorted_soma_points : List SWCNode) (st : Builder) : Builder :=
  sorted_soma_points.enum.foldl (somaChainStep sorted_soma_points) st

/-- Embedding of `NeuroMLWriter.handle_soma`.  Dispatches on the number of soma nodes in
the whole tree: exactly 3 (canonical three-point soma, work done at the first
soma node in file order), exactly 1 (single-point soma), and otherwise a chain
over the soma nodes sorted by ascending x, with work done only at the lowest-x
node.  (On a tree with no soma node at all the sorted list is empty and
Python's `sorted_soma_points[0]` would raise `IndexError`; that branch is
unreachable because the handler is only invoked on soma-typed nodes.) -/
def handle_soma (g : SWCGraph) (this_point _parent_point : SWCNode)
    (st : Builder) : Builder :=
  if this_point.id ∈ st.processed_nodes then st
  else
    let st1 :=
      match somaPoints g with
      | [first, middle, end_point] =>
        if this_point.id = first.id then
          let segA : Segment :=
            { id := st.next_segment_id
              name := segName st.next_segment_id
              proximal := some (pointOf middle)
              distal := some (pointOf this_point)
              parent := none }
          let stA := registerSegment st segA this_point.id SOMA
          let segB : Segment :=
            { id := stA.next_segment_id
              name := segName stA.next_segment_id
              proximal := none
              distal := some (pointOf end_point)
              parent := some (stA.next_segment_id - 1) }
          registerSegment stA segB end_point.id SOMA
        else st
      | [_single] =>
        let seg : Segment :=
          { id := st.next_segment_id
            name := somaSegName st.next_segment_id
            proximal := some (pointOf this_point)
            distal := some (pointOf this_point)
            parent := none }
        registerSegment st seg this_point.id SOMA
      | sp =>
        let sorted_soma_points :=
          List.insertionSort (fun a b : SWCNode => a.x ≤ b.x) sp
        match sorted_soma_points.head? with
        | some first =>
          if this_point = first then somaChain sorted_soma_points st
          else st
        | none => st
    { st1 with
      processed_nodes := insertProcessed this_point.id st1.processed_nodes }

/-! ## The general segment-creation rule (`NeuroMLWriter.create_segment`) -/

/-- Embedding of `NeuroMLWriter.create_segment`.  The `new_branch` argument is accepted by
the source but never read; the function recomputes `is_branch_point` and
`is_type_change` itself. -/
def create_segment (g : SWCGraph) (this_point parent_point : SWCNode)
    (_new_branch : Bool) (st : Builder) : Builder :=
  let seg_id := st.next_segment_id
  let segment_type :=
    if this_point.type < sectionTypes.length then
      sectionTypes.getD this_point.type ""
    else "type_" ++ toString this_point.type
  let is_branch_point := 1 < (g.children parent_point).length
  let is_type_change := this_point.type ≠ parent_point.type
  let parentRef : Option Nat :=
    st.point_indices_vs_seg_ids.lookup parent_point.id
  let prox_dist : Option Point3DWithDiam × Option Point3DWithDiam :=
    if is_type_change then
      (some (pointOf this_point),
        match g.children this_point with
        | next_point :: _ => some (pointOf next_point)
        | [] => some (pointOf this_point))
    else if is_branch_point then
      (some (pointOf parent_point), some (pointOf this_point))
    else if this_point.id ∉ st.processed_nodes then
      (none, some (pointOf this_point))
    else (none, none)
  let segment : Segment :=
    { id := seg_id
      name := segment_type ++ "_Seg_" ++ toString seg_id
      proximal := prox_dist.1
      distal := prox_dist.2
      parent := parentRef }
  let st1 := registerSegment st segment this_point.id this_point.type
  { st1 with
    processed_nodes := insertProcessed this_point.id st1.processed_nodes }

/-! ## The depth-first traversal (`NeuroMLWriter.parse_tree`) -/

/-- Embedding of `NeuroMLWriter.parse_tree`, fuel-indexed.  A node already processed is
skipped; a soma-typed node is routed to the soma handler, any other node to
`create_segment`; then the traversal recurses into the unprocessed children in
declaration order. -/
def parse_tree (g : SWCGraph) : Nat → SWCNode → SWCNode → Builder → Builder
  | 0, _, _, st => st
  | fuel + 1, parent_point, this_point, st =>
    if this_point.id ∈ st.processed_nodes then st
    else
      let type_change := this_point.type ≠ parent_point.type
      let new_branch := 1 < (g.children parent_point).length
      let st1 :=
        if this_point.type = SOMA then handle_soma g this_point parent_point st
        else create_segment g this_point parent_point (new_branch || type_change) st
      let st2 :=
        { st1 with
          processed_nodes := insertProcessed this_point.id st1.processed_nodes }
      (g.children this_point).foldl
        (fun acc child_point =>
          if child_point.id ∈ acc.processed_nodes then acc
          else parse_tree g fuel this_point child_point acc) st2

/-- Embedding of `NeuroMLWriter.find_start_point`: the first soma-typed node in file order,
else the first node (Python indexes `points[0]`, raising on an empty graph;
the embedding returns `dfltNode` there). -/
def find_start_point (g : SWCGraph) : SWCNode :=
  match g.nodes.find? (fun p => p.type = SOMA) with
  | some p => p
  | none => g.nodes.getD 0 dfltNode

/-- Enough fuel for any actual tree: the recursion descends one tree level per
fuel unit and marks a node processed before recursing. -/
def buildFuel (g : SWCGraph) : Nat := g.nodes.length + 1

/-- The traversal as `nml_string` runs it:
`self.parse_tree(start_point, start_point)` from the designated start point. -/
def runBuild (g : SWCGraph) : Builder :=
  parse_tree g (buildFuel g) (find_start_point g) (find_start_point g) initBuilder

/-! ## Post-traversal group derivation (`NeuroMLWriter.create_segment_groups`) -/

/-- Builder-stage failures. -/
inductive BuildError
  | noSomaFound
deriving DecidableEq

/-- The morphology contents of the cell after `create_segment_groups` has
appended the group objects: the segment list, and for every non-empty group
(in dictionary insertion order) its members in ascending order. -/
structure CellMorphology where
  segments : List Segment
  segment_groups : List (String × List Nat)
deriving DecidableEq

/-- The `SegmentGroup` objects appended by the first loop of
`create_segment_groups`: each non-empty group, members sorted ascending. -/
def builtSegmentGroups (st : Builder) : List (String × List Nat) :=
  (groupNames.filter (fun n => st.segment_groups n ≠ [])).map
    (fun n => (n, List.insertionSort (fun a b => a ≤ b) (st.segment_groups n)))

/-- The expression `min(seg_id for seg_id, seg_type in self.segment_types.items() if
seg_type == SWCNode.SOMA)` — `none` when no soma segment exists, where Python
raises `ValueError: min() arg is an empty sequence`. -/
def somaRootSegmentId (st : Builder) : Option Nat :=
  ((st.segment_types.filter (fun p => p.2 = SOMA)).map Prod.fst).min?

/-- Embedding of `NeuroMLWriter.create_segment_groups`: appends the group objects to the
cell, then derives the unbranched-group root from the lowest soma segment id;
the groups are appended before the root derivation can fail. -/
def create_segment_groups (st : Builder) :
    CellMorphology × Except BuildError Nat :=
  (⟨st.segments, builtSegmentGroups st⟩,
    match somaRootSegmentId st with
    | some r => Except.ok r
    | none => Except.error BuildError.noSomaFound)

/-! ## The generation entry point (`NeuroMLWriter.nml_string`) -/

/-- Embedding of `NeuroMLWriter.nml_string`.  `Except.ok none` is the early `return ""`
(the guard fails: no cell, no segments, no error); `Except.ok (some _)` is a
completed build (the serialized document text itself is produced by the
external NeuroML writer and is out of scope); `Except.error` propagates the
post-traversal failure. -/
def nml_string (g : SWCGraph) :
    Except BuildError (Option (Builder × CellMorphology × Nat)) :=
  if g.nodes.length < 2 ∨ sectionTypes.length < 2 ∨
      (sectionTypes.getD 1 "").toLower ≠ "soma" then
    Except.ok none
  else
    let st := runBuild g
    match create_segment_groups st with
    | (cm, Except.ok root) => Except.ok (some (st, cm, root))
    | (_, Except.error e) => Except.error e

/-! ## The reverse direction (`ExportSWC.py`) -/

/-- A segment as the exporter reads it back from a NeuroML cell: optional
proximal point, distal point, optional parent segment id, and the parent
attachment's `fraction_along`.  The fraction is only consulted when a parent
is present. -/
structure ExpSegment where
  id : Nat
  proximal : Option Point3DWithDiam
  distal : Point3DWithDiam
  parent : Option Nat
  fraction_along : Rat
deriving DecidableEq

/-- A NeuroML cell as the exporter sees it: its morphology's segment list, and
the named segment groups with their ordered member segment ids. -/
structure ExpCell where
  segments : List ExpSegment
  groups : List (String × List Nat)
deriving DecidableEq

/-- Modelled from the spec: the external model library's
`cell.get_ordered_segments_in_groups([sg])` — "segment groups (each with an
ordered set of member-segment references)"; the result maps the group name to
its member segments in group-declared order, with no entry when the cell has
no such group. -/
def get_ordered_segments_in_groups (cell : ExpCell) (sg : String) :
    Option (List ExpSegment) :=
  match cell.groups.lookup sg with
  | some ids =>
    some (ids.filterMap (fun i => cell.segments.find? (fun s => s.id = i)))
  | none => none

/-- Exporter failures.  `unsupportedAttachment` is the
`raise Exception("Can't handle case where a segment is not connected to the 0
or 1 point along the parent!...")` of `_get_lines_for_seg_group`;
`missingParentLine` is the `KeyError` a Python dict lookup raises when the
parent segment has emitted no line yet. -/
inductive ExportError
  | unsupportedAttachment
  | missingParentLine
deriving DecidableEq

/-- One emitted SWC line: 1-based line index, type code, position, radius
(half the stored diameter), and parent line index (`-1` for none). -/
structure SWCLine where
  index : Nat
  type : Nat
  x : Rat
  y : Rat
  z : Rat
  radius : Rat
  parent_line : Int
deriving DecidableEq

/-- The exporter's per-call counters: the next line number (starting at 1) and
the per-segment indices of previously emitted distal and proximal lines. -/
structure ExportState where
  line_count : Nat
  line_index_vs_distals : List (Nat × Nat)
  line_index_vs_proximals : List (Nat × Nat)
deriving DecidableEq

/-- Counter state at the start of one `convert_to_swc` call. -/
def initExportState : ExportState := ⟨1, [], []⟩

/-- Parent-line resolution of `_get_lines_for_seg_group`:
`fract` is snapped to `0` if below `0.0001` and to `1` if within `0.0001` of
`1`; a snapped `1` uses the parent's distal line, otherwise the branch is
taken only when the *original* `fraction_along` is exactly `0`, and every
other fraction raises. -/
def resolveParentLine (st : ExportState) (parent_seg_id : Nat)
    (fraction_along : Rat) : Except ExportError Int :=
  let fract0 := if fraction_along < mkRat 1 10000 then 0 else fraction_along
  let fract := if rabs (rsub fract0 1) < mkRat 1 10000 then 1 else fract0
  if fract = 1 then
    match st.line_index_vs_distals.lookup parent_seg_id with
    | some l => Except.ok (l : Int)
    | none => Except.error ExportError.missingParentLine
  else if fraction_along = 0 then
    match st.line_index_vs_proximals.lookup parent_seg_id with
    | some l => Except.ok (l : Int)
    | none => Except.error ExportError.missingParentLine
  else Except.error ExportError.unsupportedAttachment

/-- The per-segment body of the `for segment in segs` loop of
`_get_lines_for_seg_group`: resolve the parent line, then emit a proximal
line when the segment has an explicit proximal point (recording it and making
it the distal line's parent), and always emit a distal line. -/
def emitSegment (t : Nat) (st : ExportState) (segment : ExpSegment) :
    Except ExportError (ExportState × List SWCLine) := do
  let parent_line : Int ←
    match segment.parent with
    | none => pure (-1)
    | some pid => resolveParentLine st pid segment.fraction_along
  match segment.proximal with
  | some proximal =>
    let pline : SWCLine :=
      ⟨st.line_count, t, proximal.x, proximal.y, proximal.z,
        half proximal.diameter, parent_line⟩
    let st1 : ExportState :=
      ⟨st.line_count + 1, st.line_index_vs_distals,
        (segment.id, st.line_count) :: st.line_index_vs_proximals⟩
    let dline : SWCLine :=
      ⟨st1.line_count, t, segment.distal.x, segment.distal.y, segment.distal.z,
        half segment.distal.diameter, (pline.index : Int)⟩
    let st2 : ExportState :=
      ⟨st1.line_count + 1, (segment.id, st1.line_count) :: st1.line_index_vs_distals,
        st1.line_index_vs_proximals⟩
    pure (st2, [pline, dline])
  | none =>
    let dline : SWCLine :=
      ⟨st.line_count, t, segment.distal.x, segment.distal.y, segment.distal.z,
        half segment.distal.diameter, parent_line⟩
    let st2 : ExportState :=
      ⟨st.line_count + 1, (segment.id, st.line_count) :: st.line_index_vs_distals,
        st.line_index_vs_proximals⟩
    pure (st2, [dline])

/-- Embedding of `_get_lines_for_seg_group`: the lines and visited segment ids for one
group (empty when the cell has no group of that name). -/
def get_lines_for_seg_group (cell : ExpCell) (sg : String) (t : Nat)
    (st : ExportState) :
    Except ExportError (ExportState × List SWCLine × List Nat) :=
  match get_ordered_segments_in_groups cell sg with
  | none => Except.ok (st, [], [])
  | some segs =>
    segs.foldlM
      (fun (acc : ExportState × List SWCLine × List Nat) segment => do
        let (st', ls) ← emitSegment t acc.1 segment
        pure (st', acc.2.1 ++ ls, acc.2.2 ++ [segment.id]))
      (st, [], [])

/-- Failures of one `convert_to_swc` cell conversion. -/
inductive ConvertError
  | emission (e : ExportError)
  | incompleteGroupCoverage
deriving DecidableEq

/-- The per-cell body of `convert_to_swc`: gather lines for `soma_group`
(type 1), `dendrite_group` (type 3) and `axon_group` (type 2) in that fixed
order with a fresh line counter, check that the visited segment count equals
the cell's total segment count (else raise, with no line written), and only
then write all gathered lines. -/
def convert_cell_to_swc (cell : ExpCell) : Except ConvertError (List SWCLine) := do
  let (st1, lines1, soma_ids) ←
    (get_lines_for_seg_group cell "soma_group" 1 initExportState).mapError
      ConvertError.emission
  let (st2, lines2, dend_ids) ←
    (get_lines_for_seg_group cell "dendrite_group" 3 st1).mapError
      ConvertError.emission
  let (_, lines3, axon_ids) ←
    (get_lines_for_seg_group cell "axon_group" 2 st2).mapError
      ConvertError.emission
  if cell.segments.length ≠ soma_ids.length + dend_ids.length + axon_ids.length then
    Except.error ConvertError.incompleteGroupCoverage
  else
    pure (lines1 ++ lines2 ++ lines3)

/-! ## Spec-side definitions and concrete inputs used in the statements -/

/-- Spec-side description of the multi-point soma chain: starting at position
`i` and segment id `sid`, one segment per remaining soma node, with a proximal
point only on the very first segment (`i = 0`), each later segment chained to
its predecessor, and the distal point taken from the *next* node in the full
sorted list `ss` (the last segment re-uses its own node's point). -/
def chainSegsFrom (ss : List SWCNode) : Nat → Nat → List SWCNode → List Segment
  | _, _, [] => []
  | i, sid, cp :: rest =>
    { id := sid
      name := somaSegName sid
      proximal := if i = 0 then some (pointOf cp) else none
      distal :=
        if i < ss.length - 1 then some (pointOf (ss.getD (i + 1) cp))
        else some (pointOf cp)
      parent := if i = 0 then none else some (sid - 1) } ::
      chainSegsFrom ss (i + 1) (sid + 1) rest

/-- The whole chain the multi-point soma case should emit, first id `n0`. -/
def chainSegments (ss : List SWCNode) (n0 : Nat) : List Segment :=
  chainSegsFrom ss 0 n0 ss

/-- The sorted-by-ascending-x view of a tree's soma points. -/
def sortedSomaPoints (g : SWCGraph) : List SWCNode :=
  List.insertionSort (fun a b : SWCNode => a.x ≤ b.x) (somaPoints g)

/-- Node 1 of the spec's end-to-end example (`1 1 0 0 0 10 -1`). -/
def exNode1 : SWCNode := ⟨1, 1, 0, 0, 0, 10, -1⟩

/-- Node 2 of the spec's end-to-end example (`2 1 0 -10 0 10 1`). -/
def exNode2 : SWCNode := ⟨2, 1, 0, -10, 0, 10, 1⟩

/-- Node 3 of the spec's end-to-end example (`3 1 0 10 0 10 1`). -/
def exNode3 : SWCNode := ⟨3, 1, 0, 10, 0, 10, 1⟩

/-- Node 4 of the spec's end-to-end example (`4 3 10 0 0 2 1`). -/
def exNode4 : SWCNode := ⟨4, 3, 10, 0, 0, 2, 1⟩

/-- The spec's end-to-end example: a 3-point soma plus one dendrite point
attached to node 1. -/
def exGraph : SWCGraph := ⟨[exNode1, exNode2, exNode3, exNode4]⟩

/-- A 4-node all-soma star: nodes 2, 3, 4 attached to node 1, with strictly
increasing x coordinates (a multi-contour arrangement, not a cylinder
chain). -/
def starNode1 : SWCNode := ⟨1, 1, 0, 0, 0, 5, -1⟩

/-- Second star node. -/
def starNode2 : SWCNode := ⟨2, 1, 1, 0, 0, 5, 1⟩

/-- Third star node. -/
def starNode3 : SWCNode := ⟨3, 1, 2, 0, 0, 5, 1⟩

/-- Fourth star node. -/
def starNode4 : SWCNode := ⟨4, 1, 3, 0, 0, 5, 1⟩

/-- The 4-soma star graph. -/
def starGraph : SWCGraph := ⟨[starNode1, starNode2, starNode3, starNode4]⟩

/-- An axon-only tree (no soma-typed node), a prefix of the repository's
`test_case2_no_soma` fixture. -/
def axGraph : SWCGraph :=
  ⟨[⟨1, 2, 0, 0, 0, 2, -1⟩, ⟨2, 2, 20, 0, 0, 2, 1⟩, ⟨3, 2, 0, 20, 0, 2, 1⟩]⟩

/-- A one-node graph (fewer than 2 point-nodes). -/
def oneGraph : SWCGraph := ⟨[⟨1, 1, 0, 0, 0, 10, -1⟩]⟩

/-- A well-covered export cell: two soma segments, both in `soma_group`. -/
def cellOK : ExpCell :=
  ⟨[⟨0, some ⟨0, 0, 0, 20⟩, ⟨0, 10, 0, 20⟩, none, 1⟩,
    ⟨1, none, ⟨0, -10, 0, 20⟩, some 0, 1⟩],
    [("soma_group", [0, 1]), ("dendrite_group", []), ("axon_group", [])]⟩

/-- The same cell with segment 1 missing from every canonical group. -/
def cellBad : ExpCell :=
  ⟨[⟨0, some ⟨0, 0, 0, 20⟩, ⟨0, 10, 0, 20⟩, none, 1⟩,
    ⟨1, none, ⟨0, -10, 0, 20⟩, some 0, 1⟩],
    [("soma_group", [0]), ("dendrite_group", []), ("axon_group", [])]⟩

/-- An export counter state with recorded distal line 2 and proximal line 1
for parent segment 0. -/
def stW : ExportState := ⟨3, [(0, 2)], [(0, 1)]⟩

/-- A 3-point soma whose dendrite point (node 4) is attached to the *middle*
soma node (node 2) rather than to node 1. -/
def midChildGraph : SWCGraph :=
  ⟨[⟨1, 1, 0, 0, 0, 10, -1⟩, ⟨2, 1, 0, -10, 0, 10, 1⟩,
    ⟨3, 1, 0, 10, 0, 10, 1⟩, ⟨4, 3, 10, 0, 0, 2, 2⟩]⟩

/-- Root of the skewed 4-soma star: the file-first node, with the *highest*
x-coordinate, so it is not the lowest-x node of the sorted chain. -/
def skewNode1 : SWCNode := ⟨1, 1, 5, 0, 0, 5, -1⟩

/-- Second skewed-star node (lowest x). -/
def skewNode2 : SWCNode := ⟨2, 1, 0, 0, 0, 5, 1⟩

/-- Third skewed-star node. -/
def skewNode3 : SWCNode := ⟨3, 1, 1, 0, 0, 5, 1⟩

/-- Fourth skewed-star node. -/
def skewNode4 : SWCNode := ⟨4, 1, 2, 0, 0, 5, 1⟩

/-- A 4-soma star whose traversal root (file-first soma node) has the highest
x: its no-op handler invocation marks it visited before the chain at the
lowest-x node runs, so the chain skips it. -/
def skewGraph : SWCGraph := ⟨[skewNode1, skewNode2, skewNode3, skewNode4]⟩

/-! ## Basic lemmas about the builder's containers -/

theorem twice_eq (q : Rat) : twice q = 2 * q := by
  rw [Rat.mul_def]
  simp [twice, mkRat, Rat.normalize]

theorem half_eq (q : Rat) : half q = q / 2 := by
  rw [Rat.div_def, Rat.mul_def]
  simp [half, Rat.inv_def, mkRat, Rat.normalize, Rat.divInt]
  norm_num [Nat.mul_comm]

theorem rsub_eq (a b : Rat) : rsub a b = a - b := by
  rw [Rat.sub_def]
  simp [rsub, mkRat, Rat.normalize]

theorem rabs_eq (q : Rat) : rabs q = |q| := by
  rw [Rat.abs_def, rabs, Rat.mkRat_eq_divInt]

theorem lookup_cons_self {β : Type} {l : List (Nat × β)} {k : Nat} {v : β} :
    List.lookup k ((k, v) :: l) = some v := by
  simp [List.lookup]

theorem lookup_cons_ne {β : Type} {l : List (Nat × β)} {k a : Nat} {v : β}
    (h : a ≠ k) : List.lookup a ((k, v) :: l) = List.lookup a l := by
  have hb : (a == k) = false := beq_eq_false_iff_ne.mpr h
  simp [List.lookup, hb]

theorem mem_add_segment_to_groups {sid n t : Nat} {gs : String → List Nat}
    {gname : String} :
    sid ∈ add_segment_to_groups n t gs gname ↔
      sid ∈ gs gname ∨ (gname ∈ get_groups_for_type t ∧ sid = n) := by
  unfold add_segment_to_groups
  split <;> simp_all

theorem mem_insertProcessed {i j : Nat} {l : List Nat} :
    j ∈ insertProcessed i l ↔ j = i ∨ j ∈ l := by
  unfold insertProcessed
  split
  · rename_i hi
    constructor
    · exact Or.inr
    · rintro (rfl | hj)
      · exact hi
      · assumption
  · simp

/-! ## The builder invariant -/

/-- The structural invariant maintained by every segment-emission path of the
builder: segment ids are exactly `0..next_segment_id-1` in creation order,
parent references point strictly backwards, every recorded point-map /
type-map / group entry concerns an already assigned id, every appended
segment has a recorded type, and group membership is exactly what
`get_groups_for_type` prescribes for that recorded type. -/
structure Inv (st : Builder) : Prop where
  ids_range : st.segments.map Segment.id = List.range st.next_segment_id
  parent_lt : ∀ s ∈ st.segments, ∀ p, s.parent = some p → p < s.id
  map_lt : ∀ pr ∈ st.point_indices_vs_seg_ids, pr.2 < st.next_segment_id
  types_lt : ∀ pr ∈ st.segment_types, pr.1 < st.next_segment_id
  members_lt : ∀ gname : String, ∀ sid ∈ st.segment_groups gname,
    sid < st.next_segment_id
  types_total : ∀ s ∈ st.segments, ∃ t, st.segment_types.lookup s.id = some t
  group_iff : ∀ sid t, st.segment_types.lookup sid = some t →
    ∀ gname : String,
      (sid ∈ st.segment_groups gname ↔ gname ∈ get_groups_for_type t)

theorem Inv.init : Inv initBuilder := by
  constructor <;> simp [initBuilder, List.lookup]

theorem Inv.seg_id_lt {st : Builder} (h : Inv st) {s : Segment}
    (hs : s ∈ st.segments) : s.id < st.next_segment_id := by
  have : s.id ∈ st.segments.map Segment.id := List.mem_map_of_mem _ hs
  rw [h.ids_range] at this
  exact List.mem_range.mp this

theorem Inv.register {st : Builder} (h : Inv st) {seg : Segment}
    {point_id t : Nat} (hid : seg.id = st.next_segment_id)
    (hpar : ∀ p, seg.parent = some p → p < st.next_segment_id) :
    Inv (registerSegment st seg point_id t) := by
  constructor
  · simp [registerSegment, h.ids_range, hid, List.range_succ]
  · intro s hs p hp
    simp [registerSegment] at hs
    rcases hs with hs | rfl
    · exact h.parent_lt s hs p hp
    · rw [hid]
      exact hpar p hp
  · intro pr hpr
    simp [registerSegment] at hpr
    rcases hpr with rfl | hpr
    · exact Nat.lt_succ_self _
    · exact Nat.lt_succ_of_lt (h.map_lt pr hpr)
  · intro pr hpr
    simp [registerSegment] at hpr
    rcases hpr with rfl | hpr
    · exact Nat.lt_succ_self _
    · exact Nat.lt_succ_of_lt (h.types_lt pr hpr)
  · intro gname sid hmem
    simp only [registerSegment] at hmem
    rcases mem_add_segment_to_groups.mp hmem with hmem | ⟨-, rfl⟩
    · exact Nat.lt_succ_of_lt (h.members_lt gname sid hmem)
    · exact Nat.lt_succ_self _
  · intro s hs
    simp [registerSegment] at hs
    rcases hs with hs | rfl
    · obtain ⟨t', ht'⟩ := h.types_total s hs
      refine ⟨t', ?_⟩
      simpa [registerSegment, lookup_cons_ne (Nat.ne_of_lt (h.seg_id_lt hs))]
        using ht'
    · exact ⟨t, by simp [registerSegment, hid, lookup_cons_self]⟩
  · intro sid t' hl gname
    by_cases hsid : sid = st.next_segment_id
    · rw [show (registerSegment st seg point_id t).segment_types =
            (st.next_segment_id, t) :: st.segment_types from rfl] at hl
      rw [hsid, lookup_cons_self] at hl
      obtain rfl : t = t' := by injection hl
      rw [hsid]
      have hnot : st.next_segment_id ∉ st.segment_groups gname := fun hmem =>
        absurd (h.members_lt gname _ hmem) (Nat.lt_irrefl _)
      constructor
      · intro hmem
        rcases mem_add_segment_to_groups.mp hmem with hmem | ⟨hg, -⟩
        · exact absurd hmem hnot
        · exact hg
      · intro hg
        exact mem_add_segment_to_groups.mpr (Or.inr ⟨hg, rfl⟩)
    · rw [show (registerSegment st seg point_id t).segment_types =
            (st.next_segment_id, t) :: st.segment_types from rfl,
        lookup_cons_ne hsid] at hl
      have := h.group_iff sid t' hl gname
      rw [show (registerSegment st seg point_id t).segment_groups =
            add_segment_to_groups st.next_segment_id t st.segment_groups
          from rfl]
      rw [mem_add_segment_to_groups]
      constructor
      · rintro (hmem | ⟨-, rfl⟩)
        · exact this.mp hmem
        · exact absurd rfl hsid
      · intro hg
        exact Or.inl (this.mpr hg)

theorem Inv.processed_update {st : Builder} {l : List Nat} (h : Inv st) :
    Inv { st with processed_nodes := l } :=
  ⟨h.ids_range, h.parent_lt, h.map_lt, h.types_lt, h.members_lt,
    h.types_total, h.group_iff⟩

theorem mem_of_lookup {β : Type} :
    ∀ {l : List (Nat × β)} {a : Nat} {v : β}, l.lookup a = some v → (a, v) ∈ l := by
  intro l
  induction l with
  | nil => intro a v h; simp [List.lookup] at h
  | cons kv tl ih =>
    intro a v h
    rcases kv with ⟨k, w⟩
    by_cases hak : a = k
    · subst hak
      rw [lookup_cons_self] at h
      obtain rfl : w = v := by injection h
      exact List.mem_cons_self _ _
    · rw [lookup_cons_ne hak] at h
      exact List.mem_cons_of_mem _ (ih h)

theorem foldl_pres {α : Type} {P : Builder → Prop} {f : Builder → α → Builder}
    (hf : ∀ st x, P st → P (f st x)) :
    ∀ (l : List α) (st : Builder), P st → P (l.foldl f st) := by
  intro l
  induction l with
  | nil => exact fun st h => h
  | cons a tl ih => intro st h; exact ih _ (hf st a h)

theorem somaChainStep_inv (ss : List SWCNode) (st : Builder) (p : Nat × SWCNode)
    (h : Inv st) (hp : p.1 ≠ 0 → 1 ≤ st.next_segment_id) :
    Inv (somaChainStep ss st p) ∧
      st.next_segment_id ≤ (somaChainStep ss st p).next_segment_id := by
  unfold somaChainStep
  by_cases hm : p.2.id ∈ st.processed_nodes
  · simp only [if_pos hm]
    exact ⟨h, le_refl _⟩
  · simp only [if_neg hm]
    refine ⟨Inv.processed_update (h.register rfl ?_), ?_⟩
    · intro q hq
      by_cases h0 : p.1 = 0
      · simp [h0] at hq
      · simp only [if_neg h0] at hq
        obtain rfl : st.next_segment_id - 1 = q := by injection hq
        exact Nat.sub_lt (hp h0) Nat.one_pos
    · exact Nat.le_succ _

theorem somaChainStep_zero_next (ss : List SWCNode) (st : Builder) {cp : SWCNode}
    (hm : cp.id ∉ st.processed_nodes) :
    (somaChainStep ss st (0, cp)).next_segment_id = st.next_segment_id + 1 := by
  simp [somaChainStep, hm, registerSegment]

theorem chain_fold_inv {ss : List SWCNode} :
    ∀ (l : List (Nat × SWCNode)) (st : Builder), Inv st →
      1 ≤ st.next_segment_id →
      Inv (l.foldl (somaChainStep ss) st) := by
  intro l
  induction l with
  | nil => intro st h _; exact h
  | cons p tl ih =>
    intro st h h1
    simp only [List.foldl_cons]
    obtain ⟨h', hmono⟩ := somaChainStep_inv ss st p h (fun _ => h1)
    exact ih _ h' (le_trans h1 hmono)

/-! ## Case equations for `handle_soma` -/

theorem handle_soma_eq_processed {g : SWCGraph} {this_point parent_point : SWCNode}
    {st : Builder} (hp : this_point.id ∈ st.processed_nodes) :
    handle_soma g this_point parent_point st = st := by
  unfold handle_soma
  rw [if_pos hp]

theorem handle_soma_eq_three_first {g : SWCGraph}
    {this_point parent_point : SWCNode} {st : Builder}
    {first middle end_point : SWCNode}
    (hp : this_point.id ∉ st.processed_nodes)
    (hsp : somaPoints g = [first, middle, end_point])
    (hid : this_point.id = first.id) :
    handle_soma g this_point parent_point st =
      (let stA := registerSegment st
        { id := st.next_segment_id
          name := segName st.next_segment_id
          proximal := some (pointOf middle)
          distal := some (pointOf this_point)
          parent := none } this_point.id SOMA
      let stB := registerSegment stA
        { id := st.next_segment_id + 1
          name := segName (st.next_segment_id + 1)
          proximal := none
          distal := some (pointOf end_point)
          parent := some st.next_segment_id } end_point.id SOMA
      { stB with
        processed_nodes := insertProcessed this_point.id stB.processed_nodes }) := by
  unfold handle_soma
  rw [if_neg hp, hsp]
  dsimp only
  rw [if_pos hid]
  rfl

theorem handle_soma_eq_three_other {g : SWCGraph}
    {this_point parent_point : SWCNode} {st : Builder}
    {first middle end_point : SWCNode}
    (hp : this_point.id ∉ st.processed_nodes)
    (hsp : somaPoints g = [first, middle, end_point])
    (hid : this_point.id ≠ first.id) :
    handle_soma g this_point parent_point st =
      { st with
        processed_nodes := insertProcessed this_point.id st.processed_nodes } := by
  unfold handle_soma
  rw [if_neg hp, hsp]
  dsimp only
  rw [if_neg hid]

theorem handle_soma_eq_single {g : SWCGraph}
    {this_point parent_point : SWCNode} {st : Builder} {single : SWCNode}
    (hp : this_point.id ∉ st.processed_nodes)
    (hsp : somaPoints g = [single]) :
    handle_soma g this_point parent_point st =
      (let st1 := registerSegment st
        { id := st.next_segment_id
          name := somaSegName st.next_segment_id
          proximal := some (pointOf this_point)
          distal := some (pointOf this_point)
          parent := none } this_point.id SOMA
      { st1 with
        processed_nodes := insertProcessed this_point.id st1.processed_nodes }) := by
  unfold handle_soma
  rw [if_neg hp, hsp]

theorem handle_soma_eq_chain_first {g : SWCGraph}
    {this_point parent_point : SWCNode} {st : Builder}
    (hp : this_point.id ∉ st.processed_nodes)
    (hlen1 : (somaPoints g).length ≠ 1) (hlen3 : (somaPoints g).length ≠ 3)
    {first : SWCNode}
    (hfirst : (List.insertionSort (fun a b : SWCNode => a.x ≤ b.x)
      (somaPoints g)).head? = some first)
    (hthis : this_point = first) :
    handle_soma g this_point parent_point st =
      (let st1 := somaChain
        (List.insertionSort (fun a b : SWCNode => a.x ≤ b.x) (somaPoints g)) st
      { st1 with
        processed_nodes := insertProcessed this_point.id st1.processed_nodes }) := by
  unfold handle_soma
  rw [if_neg hp]
  rcases hsp : somaPoints g with - | ⟨a, - | ⟨b, - | ⟨c, - | rest⟩⟩⟩
  · rw [hsp] at hfirst
    simp at hfirst
  · rw [hsp] at hlen1
    simp at hlen1
  · rw [hsp] at hfirst
    dsimp only
    rw [hfirst]
    dsimp only
    rw [if_pos hthis]
  · rw [hsp] at hlen3
    simp at hlen3
  · rw [hsp] at hfirst
    dsimp only
    rw [hfirst]
    dsimp only
    rw [if_pos hthis]

theorem handle_soma_eq_chain_other {g : SWCGraph}
    {this_point parent_point : SWCNode} {st : Builder}
    (hp : this_point.id ∉ st.processed_nodes)
    (hlen1 : (somaPoints g).length ≠ 1) (hlen3 : (somaPoints g).length ≠ 3)
    {first : SWCNode}
    (hfirst : (List.insertionSort (fun a b : SWCNode => a.x ≤ b.x)
      (somaPoints g)).head? = some first)
    (hthis : this_point ≠ first) :
    handle_soma g this_point parent_point st =
      { st with
        processed_nodes := insertProcessed this_point.id st.processed_nodes } := by
  unfold handle_soma
  rw [if_neg hp]
  rcases hsp : somaPoints g with - | ⟨a, - | ⟨b, - | ⟨c, - | rest⟩⟩⟩
  · rw [hsp] at hfirst
    simp at hfirst
  · rw [hsp] at hlen1
    simp at hlen1
  · rw [hsp] at hfirst
    dsimp only
    rw [hfirst]
    dsimp only
    rw [if_neg hthis]
  · rw [hsp] at hlen3
    simp at hlen3
  · rw [hsp] at hfirst
    dsimp only
    rw [hfirst]
    dsimp only
    rw [if_neg hthis]

theorem somaChain_inv {ss : List SWCNode} {st : Builder} (h : Inv st)
    (hhead : ∀ f, ss.head? = some f → f.id ∉ st.processed_nodes) :
    Inv (somaChain ss st) := by
  cases ss with
  | nil => exact h
  | cons f tl =>
    have hf : f.id ∉ st.processed_nodes := hhead f rfl
    unfold somaChain
    rw [show (f :: tl).enum = (0, f) :: tl.enumFrom 1 from rfl, List.foldl_cons]
    have h1 := somaChainStep_zero_next (f :: tl) st hf
    obtain ⟨h', -⟩ := somaChainStep_inv (f :: tl) st (0, f) h (by simp)
    exact chain_fold_inv _ _ h' (by rw [h1]; exact Nat.succ_le_succ (Nat.zero_le _))

theorem handle_soma_inv (g : SWCGraph) (this_point parent_point : SWCNode)
    (st : Builder) (h : Inv st) :
    Inv (handle_soma g this_point parent_point st) := by
  by_cases hp : this_point.id ∈ st.processed_nodes
  · rw [handle_soma_eq_processed hp]
    exact h
  · unfold handle_soma
    rw [if_neg hp]
    refine Inv.processed_update ?_
    rcases hsp : somaPoints g with - | ⟨a, - | ⟨b, - | ⟨c, - | ⟨d, tl⟩⟩⟩⟩
    · dsimp only
      exact h
    · dsimp only
      exact h.register rfl (by simp)
    · dsimp only
      rcases hh : (List.insertionSort (fun a b : SWCNode => a.x ≤ b.x)
          [a, b]).head? with - | first
      · exact h
      · dsimp only
        by_cases ht : this_point = first
        · rw [if_pos ht]
          refine somaChain_inv h ?_
          intro f hf
          rw [hh] at hf
          obtain rfl : first = f := by injection hf
          rw [← ht]
          exact hp
        · rw [if_neg ht]
          exact h
    · dsimp only
      by_cases hid : this_point.id = a.id
      · rw [if_pos hid]
        refine (h.register rfl (by simp)).register rfl ?_
        intro q hq
        obtain rfl :
            (registerSegment st
              { id := st.next_segment_id
                name := segName st.next_segment_id
                proximal := some (pointOf b)
                distal := some (pointOf this_point)
                parent := none } this_point.id SOMA).next_segment_id - 1 = q := by
          injection hq
        exact Nat.sub_lt (Nat.succ_le_succ (Nat.zero_le _)) Nat.one_pos
      · rw [if_neg hid]
        exact h
    · dsimp only
      rcases hh : (List.insertionSort (fun a b : SWCNode => a.x ≤ b.x)
          (a :: b :: c :: d :: tl)).head? with - | first
      · exact h
      · dsimp only
        by_cases ht : this_point = first
        · rw [if_pos ht]
          refine somaChain_inv h ?_
          intro f hf
          rw [hh] at hf
          obtain rfl : first = f := by injection hf
          rw [← ht]
          exact hp
        · rw [if_neg ht]
          exact h

theorem create_segment_inv (g : SWCGraph) (this_point parent_point : SWCNode)
    (nb : Bool) (st : Builder) (h : Inv st) :
    Inv (create_segment g this_point parent_point nb st) := by
  unfold create_segment
  dsimp only
  refine Inv.processed_update (h.register rfl ?_)
  intro p hq
  exact h.map_lt _ (mem_of_lookup hq)

theorem parse_tree_inv (g : SWCGraph) :
    ∀ (fuel : Nat) (parent_point this_point : SWCNode) (st : Builder), Inv st →
      Inv (parse_tree g fuel parent_point this_point st) := by
  intro fuel
  induction fuel with
  | zero => intro _ _ st h; exact h
  | succ fuel ih =>
    intro parent_point this_point st h
    rw [parse_tree]
    by_cases hp : this_point.id ∈ st.processed_nodes
    · rw [if_pos hp]
      exact h
    · rw [if_neg hp]
      dsimp only
      refine foldl_pres ?_ _ _ ?_
      · intro st' c hInv'
        dsimp only
        split
        · exact hInv'
        · exact ih _ _ _ hInv'
      · refine Inv.processed_update ?_
        by_cases hsoma : this_point.type = SOMA
        · rw [if_pos hsoma]
          exact handle_soma_inv _ _ _ _ h
        · rw [if_neg hsoma]
          exact create_segment_inv _ _ _ _ _ h

theorem runBuild_inv (g : SWCGraph) : Inv (runBuild g) :=
  parse_tree_inv g _ _ _ _ Inv.init

/-! ## Exact characterization of the multi-point soma chain -/

theorem lookup_cons_isSome {β : Type} {l : List (Nat × β)} {k a : Nat} {v : β}
    (h : List.lookup a l ≠ none) : List.lookup a ((k, v) :: l) ≠ none := by
  by_cases hak : a = k
  · subst hak
    rw [lookup_cons_self]
    exact Option.some_ne_none _
  · rw [lookup_cons_ne hak]
    exact h

theorem chainSegsFrom_length (ss : List SWCNode) :
    ∀ (l : List SWCNode) (k sid : Nat), (chainSegsFrom ss k sid l).length = l.length := by
  intro l
  induction l with
  | nil => intro k sid; rfl
  | cons cp rest ih =>
    intro k sid
    simp [chainSegsFrom, ih]

theorem chainSegsFrom_getD (ss : List SWCNode) :
    ∀ (l : List SWCNode) (k sid j : Nat), j < l.length →
      (chainSegsFrom ss k sid l).getD j dfltSeg =
        { id := sid + j
          name := somaSegName (sid + j)
          proximal :=
            if k + j = 0 then some (pointOf (l.getD j dfltNode)) else none
          distal :=
            if k + j < ss.length - 1 then
              some (pointOf (ss.getD (k + j + 1) (l.getD j dfltNode)))
            else some (pointOf (l.getD j dfltNode))
          parent := if k + j = 0 then none else some (sid + j - 1) } := by
  intro l
  induction l with
  | nil => intro k sid j hj; simp at hj
  | cons cp rest ih =>
    intro k sid j hj
    cases j with
    | zero => simp [chainSegsFrom]
    | succ j =>
      have hj' : j < rest.length := Nat.lt_of_succ_lt_succ hj
      have := ih (k + 1) (sid + 1) j hj'
      simp only [chainSegsFrom, List.getD_cons_succ]
      rw [this]
      have harith1 : k + 1 + j = k + (j + 1) := by omega
      have harith2 : sid + 1 + j = sid + (j + 1) := by omega
      rw [harith1, harith2]

theorem somaChainStep_map_mono {ss : List SWCNode} {st : Builder}
    {p : Nat × SWCNode} {a : Nat}
    (h : st.point_indices_vs_seg_ids.lookup a ≠ none) :
    (somaChainStep ss st p).point_indices_vs_seg_ids.lookup a ≠ none := by
  unfold somaChainStep
  by_cases hm : p.2.id ∈ st.processed_nodes
  · rw [if_pos hm]
    exact h
  · rw [if_neg hm]
    exact lookup_cons_isSome h

theorem chain_fold_map_mono {ss : List SWCNode} :
    ∀ (l : List (Nat × SWCNode)) (st : Builder) (a : Nat),
      st.point_indices_vs_seg_ids.lookup a ≠ none →
      ((l.foldl (somaChainStep ss) st).point_indices_vs_seg_ids.lookup a ≠ none) := by
  intro l
  induction l with
  | nil => intro st a h; exact h
  | cons p rest ih =>
    intro st a h
    rw [List.foldl_cons]
    exact ih _ a (somaChainStep_map_mono h)

theorem chain_fold_eq (ss : List SWCNode) :
    ∀ (l : List SWCNode) (k : Nat) (st : Builder),
      (∀ q ∈ l, q.id ∉ st.processed_nodes) → (l.map SWCNode.id).Nodup →
      ((l.enumFrom k).foldl (somaChainStep ss) st).segments =
          st.segments ++ chainSegsFrom ss k st.next_segment_id l ∧
        ((l.enumFrom k).foldl (somaChainStep ss) st).next_segment_id =
          st.next_segment_id + l.length ∧
        ∀ q ∈ l,
          ((l.enumFrom k).foldl
            (somaChainStep ss) st).point_indices_vs_seg_ids.lookup q.id ≠ none := by
  intro l
  induction l with
  | nil =>
    intro k st _ _
    refine ⟨?_, ?_, ?_⟩
    · simp [chainSegsFrom]
    · simp
    · intro q hq
      simp at hq
  | cons cp rest ih =>
    intro k st hall hnodup
    have hm : cp.id ∉ st.processed_nodes := hall cp (List.mem_cons_self _ _)
    have hstep : somaChainStep ss st (k, cp) =
        { registerSegment st
            { id := st.next_segment_id
              name := somaSegName st.next_segment_id
              proximal := if k = 0 then some (pointOf cp) else none
              distal :=
                if k < ss.length - 1 then some (pointOf (ss.getD (k + 1) cp))
                else some (pointOf cp)
              parent :=
                if k = 0 then none else some (st.next_segment_id - 1) }
            cp.id SOMA with
          processed_nodes :=
            insertProcessed cp.id st.processed_nodes } := by
      unfold somaChainStep
      rw [if_neg hm]
      rfl
    have hrest : ∀ q ∈ rest, q.id ∉
        (somaChainStep ss st (k, cp)).processed_nodes := by
      intro q hq
      rw [hstep]
      intro hmem
      rcases mem_insertProcessed.mp hmem with heq | hmem'
      · have : q.id ∈ rest.map SWCNode.id := List.mem_map_of_mem _ hq
        rw [List.map_cons] at hnodup
        exact (List.nodup_cons.mp hnodup).1 (heq ▸ this)
      · exact hall q (List.mem_cons_of_mem _ hq) hmem'
    have hnodup' : (rest.map SWCNode.id).Nodup := by
      rw [List.map_cons] at hnodup
      exact (List.nodup_cons.mp hnodup).2
    obtain ⟨ihseg, ihnext, ihmap⟩ := ih (k + 1) (somaChainStep ss st (k, cp))
      hrest hnodup'
    rw [show (cp :: rest).enumFrom k = (k, cp) :: rest.enumFrom (k + 1) from rfl,
      List.foldl_cons]
    refine ⟨?_, ?_, ?_⟩
    · rw [ihseg, hstep]
      simp only [registerSegment]
      rw [List.append_assoc]
      rfl
    · rw [ihnext, hstep]
      simp only [registerSegment]
      simp [List.length_cons]
      omega
    · intro q hq
      rcases List.mem_cons.mp hq with rfl | hq'
      · refine chain_fold_map_mono _ _ _ ?_
        rw [hstep]
        simp only [registerSegment]
        exact lookup_cons_self ▸ Option.some_ne_none _
      · exact ihmap q hq'

theorem somaChain_eq (ss : List SWCNode) (st : Builder)
    (hall : ∀ q ∈ ss, q.id ∉ st.processed_nodes)
    (hnodup : (ss.map SWCNode.id).Nodup) :
    (somaChain ss st).segments = st.segments ++ chainSegments ss st.next_segment_id ∧
      (somaChain ss st).next_segment_id = st.next_segment_id + ss.length ∧
      ∀ q ∈ ss, (somaChain ss st).point_indices_vs_seg_ids.lookup q.id ≠ none := by
  have := chain_fold_eq ss ss 0 st hall hnodup
  simpa [somaChain, List.enum, chainSegments] using this

/-! ## The chain on a partially visited soma set

The loop body skips any soma node already marked visited, so when some soma
nodes were reached (and no-op-marked) before the lowest-x invocation, the
chain emits one segment per *still unvisited* node only, and never enters a
skipped node's id in the point-id → segment-id table. -/

theorem somaChainStep_skip (ss : List SWCNode) (st : Builder) {i : Nat}
    {cp : SWCNode} (hm : cp.id ∈ st.processed_nodes) :
    somaChainStep ss st (i, cp) = st := by
  unfold somaChainStep
  dsimp only
  rw [if_pos hm]

theorem somaChainStep_emit (ss : List SWCNode) (st : Builder) (i : Nat)
    {cp : SWCNode} (hm : cp.id ∉ st.processed_nodes) :
    somaChainStep ss st (i, cp) =
      { registerSegment st
          { id := st.next_segment_id
            name := somaSegName st.next_segment_id
            proximal := if i = 0 then some (pointOf cp) else none
            distal :=
              if i < ss.length - 1 then some (pointOf (ss.getD (i + 1) cp))
              else some (pointOf cp)
            parent := if i = 0 then none else some (st.next_segment_id - 1) }
          cp.id SOMA with
        processed_nodes := insertProcessed cp.id st.processed_nodes } := by
  unfold somaChainStep
  dsimp only
  rw [if_neg hm]
  rfl

theorem chain_fold_length (ss : List SWCNode) :
    ∀ (l : List SWCNode) (k : Nat) (st : Builder),
      (l.map SWCNode.id).Nodup →
      ((l.enumFrom k).foldl (somaChainStep ss) st).segments.length =
        st.segments.length +
          (l.filter (fun q => q.id ∉ st.processed_nodes)).length := by
  intro l
  induction l with
  | nil => intro k st _; simp
  | cons cp rest ih =>
    intro k st hnodup
    have hnodup' : (rest.map SWCNode.id).Nodup := by
      rw [List.map_cons] at hnodup
      exact (List.nodup_cons.mp hnodup).2
    have hcp : cp.id ∉ rest.map SWCNode.id := by
      rw [List.map_cons] at hnodup
      exact (List.nodup_cons.mp hnodup).1
    rw [show (cp :: rest).enumFrom k = (k, cp) :: rest.enumFrom (k + 1) from rfl,
      List.foldl_cons]
    by_cases hm : cp.id ∈ st.processed_nodes
    · rw [somaChainStep_skip ss st hm, ih (k + 1) st hnodup', List.filter_cons]
      simp [hm]
    · rw [somaChainStep_emit ss st k hm, ih (k + 1) _ hnodup', List.filter_cons]
      have hfilt : rest.filter (fun q =>
            q.id ∉ insertProcessed cp.id st.processed_nodes) =
          rest.filter (fun q => q.id ∉ st.processed_nodes) := by
        apply List.filter_congr
        intro q hq
        have hqne : q.id ≠ cp.id := fun h =>
          hcp (h ▸ List.mem_map_of_mem _ hq)
        simp [mem_insertProcessed, hqne]
      simp only [registerSegment, hfilt]
      simp [hm]
      omega

theorem chain_fold_map_some (ss : List SWCNode) :
    ∀ (l : List SWCNode) (k : Nat) (st : Builder),
      (l.map SWCNode.id).Nodup →
      ∀ q ∈ l, q.id ∉ st.processed_nodes →
        ((l.enumFrom k).foldl (somaChainStep ss)
          st).point_indices_vs_seg_ids.lookup q.id ≠ none := by
  intro l
  induction l with
  | nil => intro k st _ q hq; simp at hq
  | cons cp rest ih =>
    intro k st hnodup q hq hqp
    have hnodup' : (rest.map SWCNode.id).Nodup := by
      rw [List.map_cons] at hnodup
      exact (List.nodup_cons.mp hnodup).2
    have hcp : cp.id ∉ rest.map SWCNode.id := by
      rw [List.map_cons] at hnodup
      exact (List.nodup_cons.mp hnodup).1
    rw [show (cp :: rest).enumFrom k = (k, cp) :: rest.enumFrom (k + 1) from rfl,
      List.foldl_cons]
    by_cases hm : cp.id ∈ st.processed_nodes
    · rcases List.mem_cons.mp hq with rfl | hq'
      · exact absurd hm hqp
      · rw [somaChainStep_skip ss st hm]
        exact ih (k + 1) st hnodup' q hq' hqp
    · rcases List.mem_cons.mp hq with rfl | hq'
      · refine chain_fold_map_mono _ _ _ ?_
        rw [somaChainStep_emit ss st k hm]
        dsimp only [registerSegment]
        rw [lookup_cons_self]
        exact Option.some_ne_none _
      · have hq'p : q.id ∉ (somaChainStep ss st (k, cp)).processed_nodes := by
          rw [somaChainStep_emit ss st k hm]
          intro hc
          rcases mem_insertProcessed.mp hc with heq | hin
          · exact hcp (heq ▸ List.mem_map_of_mem _ hq')
          · exact hqp hin
        exact ih (k + 1) _ hnodup' q hq' hq'p

theorem chain_fold_map_skip (ss : List SWCNode) :
    ∀ (l : List SWCNode) (k : Nat) (st : Builder) (a : Nat),
      a ∈ st.processed_nodes →
      ((l.enumFrom k).foldl (somaChainStep ss)
          st).point_indices_vs_seg_ids.lookup a =
        st.point_indices_vs_seg_ids.lookup a := by
  intro l
  induction l with
  | nil => intro k st a _; rfl
  | cons cp rest ih =>
    intro k st a ha
    rw [show (cp :: rest).enumFrom k = (k, cp) :: rest.enumFrom (k + 1) from rfl,
      List.foldl_cons]
    by_cases hm : cp.id ∈ st.processed_nodes
    · rw [somaChainStep_skip ss st hm]
      exact ih (k + 1) st a ha
    · have hne : a ≠ cp.id := fun h => hm (h ▸ ha)
      have ha' : a ∈ (somaChainStep ss st (k, cp)).processed_nodes := by
        rw [somaChainStep_emit ss st k hm]
        exact mem_insertProcessed.mpr (Or.inr ha)
      rw [ih (k + 1) _ a ha', somaChainStep_emit ss st k hm]
      exact lookup_cons_ne hne

/-! ## Support for the no-soma claim -/

theorem foldl_pres_mem {α : Type} (P : Builder → Prop) {f : Builder → α → Builder} :
    ∀ (l : List α), (∀ st x, x ∈ l → P st → P (f st x)) →
      ∀ st : Builder, P st → P (l.foldl f st) := by
  intro l
  induction l with
  | nil => intro _ st h; exact h
  | cons a tl ih =>
    intro hf st h
    exact ih (fun st x hx hP => hf st x (List.mem_cons_of_mem _ hx) hP) _
      (hf st a (List.mem_cons_self _ _) h)

theorem create_segment_segment_types (g : SWCGraph)
    (this_point parent_point : SWCNode) (nb : Bool) (st : Builder) :
    (create_segment g this_point parent_point nb st).segment_types =
      (st.next_segment_id, this_point.type) :: st.segment_types := rfl

theorem parse_tree_no_soma (g : SWCGraph) (hg : ∀ n ∈ g.nodes, n.type ≠ SOMA) :
    ∀ (fuel : Nat) (parent_point this_point : SWCNode) (st : Builder),
      this_point.type ≠ SOMA →
      (∀ p ∈ st.segment_types, p.2 ≠ SOMA) →
      ∀ p ∈ (parse_tree g fuel parent_point this_point st).segment_types,
        p.2 ≠ SOMA := by
  intro fuel
  induction fuel with
  | zero => intro _ _ st _ h; exact h
  | succ fuel ih =>
    intro parent_point this_point st hthis h
    rw [parse_tree]
    by_cases hp : this_point.id ∈ st.processed_nodes
    · rw [if_pos hp]
      exact h
    · rw [if_neg hp]
      dsimp only
      refine foldl_pres_mem (fun st =>
        ∀ p ∈ st.segment_types, p.2 ≠ SOMA) _ ?_ _ ?_
      · intro st' c hc hP
        dsimp only
        split
        · exact hP
        · have hcmem : c ∈ g.nodes := (List.mem_filter.mp hc).1
          exact ih _ _ _ (hg c hcmem) hP
      · rw [if_neg hthis]
        intro p hp
        rw [create_segment_segment_types] at hp
        rcases List.mem_cons.mp hp with rfl | hp'
        · exact hthis
        · exact h p hp'

theorem find_start_point_not_soma {g : SWCGraph}
    (hg : ∀ n ∈ g.nodes, n.type ≠ SOMA) :
    (find_start_point g).type ≠ SOMA := by
  unfold find_start_point
  rcases hf : g.nodes.find? (fun p => p.type = SOMA) with - | p
  · rw [hf]
    dsimp only
    rcases hn : g.nodes with - | ⟨a, tl⟩
    · intro hcon
      simp [dfltNode, SOMA] at hcon
    · simp only [List.getD_cons_zero]
      exact hg a (by rw [hn]; exact List.mem_cons_self a tl)
  · rw [hf]
    dsimp only
    have h1 := List.find?_some hf
    have hval := of_decide_eq_true h1
    exact absurd hval (hg p (List.mem_of_find?_eq_some hf))

theorem runBuild_no_soma (g : SWCGraph) (hg : ∀ n ∈ g.nodes, n.type ≠ SOMA) :
    ∀ p ∈ (runBuild g).segment_types, p.2 ≠ SOMA := by
  unfold runBuild
  exact parse_tree_no_soma g hg _ _ _ _ (find_start_point_not_soma hg)
    (by simp [initBuilder])

/-! ## Claim C9 -/

/-- C9: for every point-tree with zero soma-typed nodes, the post-traversal
unbranched-group derivation fails with `NoSomaFoundError` (the builder's
`min(...)` over soma segment ids raises on the empty sequence), while the
segment and group construction up to that point succeeds: the cell morphology
(segments plus the appended group objects) is still produced, and indeed no
built segment is recorded with the soma type. -/
theorem c9_no_soma_derivation_fails (g : SWCGraph)
    (hg : ∀ n ∈ g.nodes, n.type ≠ SOMA) :
    (create_segment_groups (runBuild g)).2 =
        Except.error BuildError.noSomaFound ∧
      (create_segment_groups (runBuild g)).1 =
        ⟨(runBuild g).segments, builtSegmentGroups (runBuild g)⟩ ∧
      ∀ p ∈ (runBuild g).segment_types, p.2 ≠ SOMA := by
  have htypes := runBuild_no_soma g hg
  have hfilt : (runBuild g).segment_types.filter (fun p => p.2 = SOMA) = [] := by
    rw [List.filter_eq_nil]
    intro p hp
    simpa using htypes p hp
  have hroot : somaRootSegmentId (runBuild g) = none := by
    unfold somaRootSegmentId
    rw [hfilt]
    rfl
  refine ⟨?_, rfl, htypes⟩
  unfold create_segment_groups
  rw [hroot]

/-- Witness for C9 at the axon-only graph. -/
theorem c9_witness :
    (∀ n ∈ axGraph.nodes, n.type ≠ SOMA) ∧
      (create_segment_groups (runBuild axGraph)).2 =
        Except.error BuildError.noSomaFound :=
  ⟨by decide, (c9_no_soma_derivation_fails axGraph (by decide)).1⟩

/-! ## Claim C10 -/

/-- C10: for every input graph with fewer than 2 point-nodes, the NeuroML
generation entry point takes the early guard and returns the empty string
(`Except.ok none`: no error raised, no cell or segments built). -/
theorem c10_small_graph_empty_output (g : SWCGraph)
    (h : g.nodes.length < 2) : nml_string g = Except.ok none := by
  unfold nml_string
  rw [if_pos (Or.inl h)]

/-- Witness for C10 at a one-node graph. -/
theorem c10_witness :
    oneGraph.nodes.length < 2 ∧ nml_string oneGraph = Except.ok none :=
  ⟨by decide, c10_small_graph_empty_output oneGraph (by decide)⟩

/-! ## Claim C4 -/

/-- C4: for every built segment-model, the segment ids are exactly `0..n-1`
in creation order (no gaps, no repeats), and every segment that has a parent
reference has a parent id strictly less than its own id. -/
theorem c4_segment_ids_sequential (g : SWCGraph) :
    (runBuild g).segments.map Segment.id =
        List.range (runBuild g).segments.length ∧
      ∀ s ∈ (runBuild g).segments, ∀ p, s.parent = some p → p < s.id := by
  have h := runBuild_inv g
  have hlen : (runBuild g).segments.length = (runBuild g).next_segment_id := by
    have := congrArg List.length h.ids_range
    simpa using this
  exact ⟨hlen ▸ h.ids_range, h.parent_lt⟩

/-- Witness for C4 at the build of the end-to-end example. -/
theorem c4_witness :
    (runBuild exGraph).segments.map Segment.id =
        List.range (runBuild exGraph).segments.length ∧
      0 < ((runBuild exGraph).segments.getD 2 dfltSeg).id :=
  ⟨(c4_segment_ids_sequential exGraph).1,
    (c4_segment_ids_sequential exGraph).2 _ (by decide) 0 (by decide)⟩

/-! ## Claim C5 -/

theorem mem_all_get_groups (t : Nat) : "all" ∈ get_groups_for_type t := by
  unfold get_groups_for_type
  exact List.mem_append_left _ (List.mem_singleton.mpr rfl)

theorem get_groups_for_type_ge5 (n : Nat) :
    get_groups_for_type (n + 5) = ["all", "dendrite_group"] := by
  unfold get_groups_for_type SOMA AXON BASAL_DENDRITE APICAL_DENDRITE
  rw [if_neg (by omega), if_neg (by omega), if_neg (by omega),
    if_neg (by omega), if_pos (by omega)]
  rfl

/-- C5: every built segment belongs to the group `all`, and to exactly one of
`soma_group`, `axon_group`, `dendrite_group` — except segments whose recorded
source point type is 0 (undefined), which belong to no group other than
`all`. -/
theorem c5_group_coverage (g : SWCGraph) :
    ∀ s ∈ (runBuild g).segments, ∃ t,
      (runBuild g).segment_types.lookup s.id = some t ∧
      s.id ∈ (runBuild g).segment_groups "all" ∧
      (t = 0 → ∀ gname : String, gname ≠ "all" →
        s.id ∉ (runBuild g).segment_groups gname) ∧
      (t ≠ 0 →
        (s.id ∈ (runBuild g).segment_groups "soma_group" ∧
            s.id ∉ (runBuild g).segment_groups "axon_group" ∧
            s.id ∉ (runBuild g).segment_groups "dendrite_group") ∨
          (s.id ∉ (runBuild g).segment_groups "soma_group" ∧
            s.id ∈ (runBuild g).segment_groups "axon_group" ∧
            s.id ∉ (runBuild g).segment_groups "dendrite_group") ∨
          (s.id ∉ (runBuild g).segment_groups "soma_group" ∧
            s.id ∉ (runBuild g).segment_groups "axon_group" ∧
            s.id ∈ (runBuild g).segment_groups "dendrite_group")) := by
  intro s hs
  have h := runBuild_inv g
  obtain ⟨t, ht⟩ := h.types_total s hs
  have hiff := h.group_iff s.id t ht
  refine ⟨t, ht, ?_, ?_, ?_⟩
  · rw [hiff "all"]
    exact mem_all_get_groups t
  · rintro rfl gname hgname
    rw [hiff gname]
    intro hmem
    unfold get_groups_for_type SOMA AXON BASAL_DENDRITE APICAL_DENDRITE at hmem
    rw [if_neg (by omega), if_neg (by omega), if_neg (by omega),
      if_neg (by omega), if_neg (by omega)] at hmem
    simp at hmem
    exact hgname hmem
  · intro ht0
    rcases t with - | - | - | - | - | n
    · exact absurd rfl ht0
    · exact Or.inl ⟨by rw [hiff]; decide, by rw [hiff]; decide,
        by rw [hiff]; decide⟩
    · exact Or.inr (Or.inl ⟨by rw [hiff]; decide, by rw [hiff]; decide,
        by rw [hiff]; decide⟩)
    · exact Or.inr (Or.inr ⟨by rw [hiff]; decide, by rw [hiff]; decide,
        by rw [hiff]; decide⟩)
    · exact Or.inr (Or.inr ⟨by rw [hiff]; decide, by rw [hiff]; decide,
        by rw [hiff]; decide⟩)
    · exact Or.inr (Or.inr ⟨by rw [hiff, get_groups_for_type_ge5]; decide,
        by rw [hiff, get_groups_for_type_ge5]; decide,
        by rw [hiff, get_groups_for_type_ge5]; decide⟩)

/-- Witness for C5 at segment 0 of the build of the end-to-end example. -/
theorem c5_witness :
    ∃ t, (runBuild exGraph).segment_types.lookup
        ((runBuild exGraph).segments.getD 0 dfltSeg).id = some t ∧
      ((runBuild exGraph).segments.getD 0 dfltSeg).id ∈
        (runBuild exGraph).segment_groups "all" ∧
      (t = 0 → ∀ gname : String, gname ≠ "all" →
        ((runBuild exGraph).segments.getD 0 dfltSeg).id ∉
          (runBuild exGraph).segment_groups gname) ∧
      (t ≠ 0 →
        (((runBuild exGraph).segments.getD 0 dfltSeg).id ∈
              (runBuild exGraph).segment_groups "soma_group" ∧
            ((runBuild exGraph).segments.getD 0 dfltSeg).id ∉
              (runBuild exGraph).segment_groups "axon_group" ∧
            ((runBuild exGraph).segments.getD 0 dfltSeg).id ∉
              (runBuild exGraph).segment_groups "dendrite_group") ∨
          (((runBuild exGraph).segments.getD 0 dfltSeg).id ∉
              (runBuild exGraph).segment_groups "soma_group" ∧
            ((runBuild exGraph).segments.getD 0 dfltSeg).id ∈
              (runBuild exGraph).segment_groups "axon_group" ∧
            ((runBuild exGraph).segments.getD 0 dfltSeg).id ∉
              (runBuild exGraph).segment_groups "dendrite_group") ∨
          (((runBuild exGraph).segments.getD 0 dfltSeg).id ∉
              (runBuild exGraph).segment_groups "soma_group" ∧
            ((runBuild exGraph).segments.getD 0 dfltSeg).id ∉
              (runBuild exGraph).segment_groups "axon_group" ∧
            ((runBuild exGraph).segments.getD 0 dfltSeg).id ∈
              (runBuild exGraph).segment_groups "dendrite_group")) :=
  c5_group_coverage exGraph _ (by decide)

/-! ## Claim C1 -/

/-- C1: on a tree with exactly 3 soma nodes, processing the first soma node
(file order) emits exactly two soma segments — segment A with proximal the
second node's point and distal the first node's point, and segment B with
parent A, no proximal, and distal the third node's point — while the handler
invocations at the second and third soma nodes only mark them visited,
emitting nothing. -/
theorem c1_three_point_soma (g : SWCGraph)
    (first middle end_point parent_point : SWCNode) (st : Builder)
    (hsp : somaPoints g = [first, middle, end_point])
    (hp : first.id ∉ st.processed_nodes) :
    ((handle_soma g first parent_point st).segments =
        st.segments ++
          [{ id := st.next_segment_id
             name := segName st.next_segment_id
             proximal := some (pointOf middle)
             distal := some (pointOf first)
             parent := none },
           { id := st.next_segment_id + 1
             name := segName (st.next_segment_id + 1)
             proximal := none
             distal := some (pointOf end_point)
             parent := some st.next_segment_id }] ∧
      (handle_soma g first parent_point st).segment_types.lookup
          st.next_segment_id = some SOMA ∧
      (handle_soma g first parent_point st).segment_types.lookup
          (st.next_segment_id + 1) = some SOMA) ∧
    ∀ q parent₂ st₂, (q = middle ∨ q = end_point) → q.id ≠ first.id →
      q.id ∉ st₂.processed_nodes →
      handle_soma g q parent₂ st₂ =
        { st₂ with processed_nodes := insertProcessed q.id st₂.processed_nodes } := by
  have heq : handle_soma g first parent_point st = _ :=
    handle_soma_eq_three_first hp hsp rfl
  constructor
  · rw [heq]
    refine ⟨?_, ?_, ?_⟩
    · simp [registerSegment]
    · dsimp only [registerSegment]
      rw [lookup_cons_ne (by omega), lookup_cons_self]
    · dsimp only [registerSegment]
      rw [lookup_cons_self]
  · rintro q parent₂ st₂ hq hqid hq2
    exact handle_soma_eq_three_other hq2 hsp hqid

/-- Witness for C1 at the end-to-end example graph. -/
theorem c1_witness :
    ((handle_soma exGraph exNode1 exNode1 initBuilder).segments =
        [{ id := 0, name := segName 0, proximal := some (pointOf exNode2),
           distal := some (pointOf exNode1), parent := none },
         { id := 1, name := segName 1, proximal := none,
           distal := some (pointOf exNode3), parent := some 0 }]) ∧
      handle_soma exGraph exNode2 exNode1 initBuilder =
        { initBuilder with
          processed_nodes := insertProcessed exNode2.id [] } :=
  ⟨(c1_three_point_soma exGraph exNode1 exNode2 exNode3 exNode1 initBuilder
      (by decide) (by decide)).1.1,
    (c1_three_point_soma exGraph exNode1 exNode2 exNode3 exNode1 initBuilder
      (by decide) (by decide)).2 exNode2 exNode1 initBuilder (Or.inl rfl)
      (by decide) (by decide)⟩

/-! ## Claim C2 -/

/-- C2 counterexample: the claim promises N−1 chained segments for every
N > 3 non-cylinder tree, but the emitted count is not that invariant: on the
4-soma star (whose root is the lowest-x node) the handler and the whole
build emit N = 4 soma segments, while on the skewed 4-soma star (whose
file-first root soma has the highest x and is no-op-visited before the
chain runs) the build emits only 3. -/
theorem c2_counterexample :
    (somaPoints starGraph).length = 4 ∧
      (handle_soma starGraph starNode1 starNode1 initBuilder).segments.length = 4 ∧
      (runBuild starGraph).segments.length = 4 ∧
      (somaPoints skewGraph).length = 4 ∧
      (runBuild skewGraph).segments.length = 3 :=
  ⟨by decide, by decide, by decide, by decide, by decide⟩

/-- C2 (amended): for a tree with more than 3 soma nodes (and well-formed,
duplicate-free node ids), the handler sorts the soma nodes by ascending x
(the sorted view is an ≤-sorted permutation of the soma nodes); only the
invocation at the lowest-x node emits segments, and it emits exactly one
chained segment per soma node not yet marked visited at that moment — in
particular, exactly N segments when no soma node has been visited before it
runs (then segment j has id `next + j` and, for j > 0, parent
`next + j - 1`), and fewer when some soma nodes were already no-op-visited.
Every other invocation only marks its node visited. -/
theorem c2_multi_soma_chain (g : SWCGraph) (st : Builder)
    (parent_point first : SWCNode)
    (hlen : 3 < (somaPoints g).length)
    (hfirst : (sortedSomaPoints g).head? = some first)
    (hfp : first.id ∉ st.processed_nodes)
    (hnodup : ((somaPoints g).map SWCNode.id).Nodup) :
    List.Sorted (fun a b : SWCNode => a.x ≤ b.x) (sortedSomaPoints g) ∧
      (sortedSomaPoints g).Perm (somaPoints g) ∧
      (handle_soma g first parent_point st).segments.length =
        st.segments.length +
          ((sortedSomaPoints g).filter
            (fun q => q.id ∉ st.processed_nodes)).length ∧
      ((∀ q ∈ somaPoints g, q.id ∉ st.processed_nodes) →
        (handle_soma g first parent_point st).segments =
          st.segments ++
            chainSegments (sortedSomaPoints g) st.next_segment_id ∧
        (chainSegments (sortedSomaPoints g) st.next_segment_id).length =
          (somaPoints g).length ∧
        ∀ j, j < (somaPoints g).length →
          ((chainSegments (sortedSomaPoints g)
              st.next_segment_id).getD j dfltSeg).id = st.next_segment_id + j ∧
          (0 < j →
            ((chainSegments (sortedSomaPoints g)
                st.next_segment_id).getD j dfltSeg).parent =
              some (st.next_segment_id + j - 1))) ∧
      ∀ q parent₂ st₂, q ∈ somaPoints g → q ≠ first →
        q.id ∉ st₂.processed_nodes →
        handle_soma g q parent₂ st₂ =
          { st₂ with
            processed_nodes := insertProcessed q.id st₂.processed_nodes } := by
  have hlen1 : (somaPoints g).length ≠ 1 := by omega
  have hlen3 : (somaPoints g).length ≠ 3 := by omega
  haveI instTot : IsTotal SWCNode (fun a b => a.x ≤ b.x) :=
    ⟨fun a b => le_total a.x b.x⟩
  haveI instTrans : IsTrans SWCNode (fun a b => a.x ≤ b.x) :=
    ⟨fun a b c h1 h2 => le_trans h1 h2⟩
  have hperm : (sortedSomaPoints g).Perm (somaPoints g) :=
    List.perm_insertionSort _ _
  have hsorted : List.Sorted (fun a b : SWCNode => a.x ≤ b.x)
      (sortedSomaPoints g) := List.sorted_insertionSort _ _
  have hnodup' : ((sortedSomaPoints g).map SWCNode.id).Nodup :=
    ((hperm.map SWCNode.id).nodup_iff).mpr hnodup
  have heq : handle_soma g first parent_point st = _ :=
    handle_soma_eq_chain_first hfp hlen1 hlen3 hfirst rfl
  refine ⟨hsorted, hperm, ?_, ?_, ?_⟩
  · rw [heq]
    have := chain_fold_length (sortedSomaPoints g) (sortedSomaPoints g) 0 st
      hnodup'
    simpa [somaChain, List.enum] using this
  · intro hall
    have hallsorted : ∀ q ∈ sortedSomaPoints g, q.id ∉ st.processed_nodes :=
      fun q hq => hall q (hperm.mem_iff.mp hq)
    obtain ⟨hseg, -, -⟩ :=
      somaChain_eq (sortedSomaPoints g) st hallsorted hnodup'
    refine ⟨?_, ?_, ?_⟩
    · rw [heq]
      exact hseg
    · rw [chainSegments, chainSegsFrom_length, hperm.length_eq]
    · intro j hj
      have hjlen : j < (sortedSomaPoints g).length := by
        rw [hperm.length_eq]
        exact hj
      have hgetD := chainSegsFrom_getD (sortedSomaPoints g)
        (sortedSomaPoints g) 0 st.next_segment_id j hjlen
      rw [chainSegments]
      constructor
      · rw [hgetD]
      · intro hj0
        rw [hgetD]
        dsimp only
        rw [if_neg (by omega)]
  · intro q parent₂ st₂ hq hqf hq2
    exact handle_soma_eq_chain_other hq2 hlen1 hlen3 hfirst hqf

/-- Witness for C2: the full chain on the 4-soma star, the no-op at a
non-lowest node, and the skipping chain on the skewed star whose root was
visited first (only 3 of the 4 soma nodes yield segments). -/
theorem c2_witness :
    (handle_soma starGraph starNode1 starNode1 initBuilder).segments =
        chainSegments (sortedSomaPoints starGraph) 0 ∧
      handle_soma starGraph starNode2 starNode1 initBuilder =
        { initBuilder with
          processed_nodes := insertProcessed starNode2.id [] } ∧
      (handle_soma skewGraph skewNode2 skewNode1
        { initBuilder with processed_nodes := [1] }).segments.length = 3 :=
  ⟨((c2_multi_soma_chain starGraph initBuilder starNode1 starNode1 (by decide)
      (by decide) (by decide) (by decide)).2.2.2.1 (by decide)).1,
    (c2_multi_soma_chain starGraph initBuilder starNode1 starNode1 (by decide)
      (by decide) (by decide) (by decide)).2.2.2.2 starNode2 starNode1
      initBuilder (by decide) (by decide) (by decide),
    (c2_multi_soma_chain skewGraph { initBuilder with processed_nodes := [1] }
      skewNode1 skewNode2 (by decide) (by decide) (by decide)
      (by decide)).2.2.1⟩

/-! ## Claim C3 -/

/-- C3 counterexample: at a type boundary the created segment's proximal is
the *current* node's point (not the parent's, which differs here); and a
proximal is also set with no type change at all when the parent is a branch
point — refuting both the coordinate choice and the "only at type
boundaries" part of the claim. -/
theorem c3_counterexample :
    ((create_segment exGraph exNode4 exNode1 true initBuilder).segments.getD 0
        dfltSeg).proximal = some (pointOf exNode4) ∧
      exNode4.type ≠ exNode1.type ∧
      pointOf exNode4 ≠ pointOf exNode1 ∧
      ((create_segment axGraph (axGraph.nodes.getD 1 dfltNode)
          (axGraph.nodes.getD 0 dfltNode) false initBuilder).segments.getD 0
        dfltSeg).proximal = some (pointOf (axGraph.nodes.getD 0 dfltNode)) ∧
      (axGraph.nodes.getD 1 dfltNode).type = (axGraph.nodes.getD 0 dfltNode).type :=
  ⟨by decide, by decide, by decide, by decide, by decide⟩

/-- C3 (amended): the general rule creates exactly one segment, with id the
next sequential id and parent the point-map entry of the parent node; its
proximal is set at a type boundary (to the *current* node's point, with the
distal stretched to the first child's point when a child exists), and also at
a branch point without type change (to the parent's point, distal the current
node's point); otherwise no proximal is set and the distal is the current
node's point. -/
theorem c3_general_segment_rule (g : SWCGraph)
    (this_point parent_point : SWCNode) (nb : Bool) (st : Builder) :
    ∃ s, (create_segment g this_point parent_point nb st).segments =
        st.segments ++ [s] ∧
      s.id = st.next_segment_id ∧
      s.parent = st.point_indices_vs_seg_ids.lookup parent_point.id ∧
      (this_point.type ≠ parent_point.type →
        s.proximal = some (pointOf this_point) ∧
        s.distal = (match g.children this_point with
          | next_point :: _ => some (pointOf next_point)
          | [] => some (pointOf this_point))) ∧
      (this_point.type = parent_point.type →
        1 < (g.children parent_point).length →
        s.proximal = some (pointOf parent_point) ∧
        s.distal = some (pointOf this_point)) ∧
      (this_point.type = parent_point.type →
        ¬1 < (g.children parent_point).length →
        this_point.id ∉ st.processed_nodes →
        s.proximal = none ∧ s.distal = some (pointOf this_point)) := by
  unfold create_segment
  dsimp only
  refine ⟨_, rfl, rfl, rfl, ?_, ?_, ?_⟩
  · intro htc
    rw [if_pos htc]
    exact ⟨rfl, rfl⟩
  · intro hteq hbp
    rw [if_neg (not_not_intro hteq), if_pos hbp]
    exact ⟨rfl, rfl⟩
  · intro hteq hbp hnp
    rw [if_neg (not_not_intro hteq), if_neg hbp, if_pos hnp]
    exact ⟨rfl, rfl⟩

/-- Witness for C3 at the end-to-end example's dendrite node. -/
theorem c3_witness :
    ∃ s, (create_segment exGraph exNode4 exNode1 true initBuilder).segments =
        initBuilder.segments ++ [s] ∧
      s.id = initBuilder.next_segment_id ∧
      s.proximal = some (pointOf exNode4) ∧
      s.distal = (match exGraph.children exNode4 with
        | next_point :: _ => some (pointOf next_point)
        | [] => some (pointOf exNode4)) := by
  obtain ⟨s, h1, h2, h3, h4, h5, h6⟩ :=
    c3_general_segment_rule exGraph exNode4 exNode1 true initBuilder
  obtain ⟨hpx, hdx⟩ := h4 (by decide)
  exact ⟨s, h1, h2, hpx, hdx⟩

/-! ## Claim C6 -/

/-- C6 counterexample: after a full build of a 3-point-soma tree the middle
soma node's id is *not* in the point-id → segment-id table (only the first
and third are), and a dendrite point attached to the middle soma node yields
a segment with no parent reference at all; moreover, in the sorted-chain
case a soma node visited before the lowest-x invocation (the skewed star's
root) is skipped by the chain and also ends the build unmapped. -/
theorem c6_counterexample :
    exNode2 ∈ somaPoints exGraph ∧
      (runBuild exGraph).point_indices_vs_seg_ids.lookup exNode2.id = none ∧
      (runBuild exGraph).point_indices_vs_seg_ids.lookup exNode1.id = some 0 ∧
      (runBuild exGraph).point_indices_vs_seg_ids.lookup exNode3.id = some 1 ∧
      ((runBuild midChildGraph).segments.getD 2 dfltSeg).id = 2 ∧
      (runBuild midChildGraph).segment_types.lookup 2 = some BASAL_DENDRITE ∧
      ((runBuild midChildGraph).segments.getD 2 dfltSeg).parent = none ∧
      skewNode1 ∈ somaPoints skewGraph ∧
      (runBuild skewGraph).point_indices_vs_seg_ids.lookup skewNode1.id = none :=
  ⟨by decide, by decide, by decide, by decide, by decide, by decide, by decide,
    by decide, by decide⟩

/-- C6 (amended): the soma handler maps a soma node id to an emitted segment
id except in two cases: the middle node of an exactly-3-point soma is never
entered in the table, and in the sorted-chain case a soma node already
marked visited before the lowest-x invocation is skipped — its table entry
is left exactly as it was (so, in a fresh build, absent).  Precisely: in the
3-point case only the first and third node ids are added, in the
single-point case the node itself is mapped, and in the chain case every
still-unvisited soma node id is mapped while a visited node's lookup is
unchanged. -/
theorem c6_soma_map_coverage (g : SWCGraph) :
    (∀ first middle end_point parent_point st,
      somaPoints g = [first, middle, end_point] →
      first.id ∉ st.processed_nodes →
      (handle_soma g first parent_point st).point_indices_vs_seg_ids =
        (end_point.id, st.next_segment_id + 1) ::
          (first.id, st.next_segment_id) :: st.point_indices_vs_seg_ids) ∧
    (∀ single parent_point st,
      somaPoints g = [single] →
      single.id ∉ st.processed_nodes →
      (handle_soma g single parent_point st).point_indices_vs_seg_ids =
        (single.id, st.next_segment_id) :: st.point_indices_vs_seg_ids) ∧
    (∀ first parent_point st,
      (somaPoints g).length ≠ 1 → (somaPoints g).length ≠ 3 →
      (sortedSomaPoints g).head? = some first →
      first.id ∉ st.processed_nodes →
      ((somaPoints g).map SWCNode.id).Nodup →
      ∀ q ∈ somaPoints g,
        (q.id ∉ st.processed_nodes →
          (handle_soma g first parent_point
            st).point_indices_vs_seg_ids.lookup q.id ≠ none) ∧
        (q.id ∈ st.processed_nodes →
          (handle_soma g first parent_point
            st).point_indices_vs_seg_ids.lookup q.id =
            st.point_indices_vs_seg_ids.lookup q.id)) := by
  refine ⟨?_, ?_, ?_⟩
  · intro first middle end_point parent_point st hsp hp
    rw [handle_soma_eq_three_first hp hsp rfl]
    rfl
  · intro single parent_point st hsp hp
    rw [handle_soma_eq_single hp hsp]
    rfl
  · intro first parent_point st hlen1 hlen3 hfirst hfp hnodup q hq
    have hperm : (sortedSomaPoints g).Perm (somaPoints g) :=
      List.perm_insertionSort _ _
    have hnodup' : ((sortedSomaPoints g).map SWCNode.id).Nodup :=
      ((hperm.map SWCNode.id).nodup_iff).mpr hnodup
    have hqsorted : q ∈ sortedSomaPoints g := hperm.mem_iff.mpr hq
    rw [handle_soma_eq_chain_first hfp hlen1 hlen3 hfirst rfl]
    constructor
    · intro hqp
      have := chain_fold_map_some (sortedSomaPoints g) (sortedSomaPoints g) 0
        st hnodup' q hqsorted hqp
      simpa [somaChain, List.enum] using this
    · intro hqp
      have := chain_fold_map_skip (sortedSomaPoints g) (sortedSomaPoints g) 0
        st q.id hqp
      simpa [somaChain, List.enum] using this

/-- Witness for C6 at the 3-point example, the 4-soma star (an unvisited
node is mapped), and the skewed star (the pre-visited root's lookup stays
empty). -/
theorem c6_witness :
    ((handle_soma exGraph exNode1 exNode1 initBuilder).point_indices_vs_seg_ids =
        [(exNode3.id, 1), (exNode1.id, 0)]) ∧
      (handle_soma starGraph starNode1 starNode1
        initBuilder).point_indices_vs_seg_ids.lookup starNode3.id ≠ none ∧
      (handle_soma skewGraph skewNode2 skewNode1
        { initBuilder with
          processed_nodes := [1] }).point_indices_vs_seg_ids.lookup
        skewNode1.id = none :=
  ⟨(c6_soma_map_coverage exGraph).1 exNode1 exNode2 exNode3 exNode1
      initBuilder (by decide) (by decide),
    ((c6_soma_map_coverage starGraph).2.2 starNode1 starNode1 initBuilder
      (by decide) (by decide) (by decide) (by decide) (by decide) starNode3
      (by decide)).1 (by decide),
    ((c6_soma_map_coverage skewGraph).2.2 skewNode2 skewNode1
      { initBuilder with processed_nodes := [1] } (by decide) (by decide)
      (by decide) (by decide) (by decide) skewNode1 (by decide)).2 (by decide)⟩

/-! ## Claim C7 -/

/-- C7 counterexample: a parent attachment fraction of `1/20000` — nonzero
but within `1e-4` of `0.0` — does *not* resolve to the parent's proximal
line; the export raises `UnsupportedAttachmentError` instead (the code's
`elif` compares the original `fraction_along` to exactly `0`). -/
theorem c7_counterexample :
    rabs (rsub (mkRat 1 20000) 0) < mkRat 1 10000 ∧
      (mkRat 1 20000 : Rat) ≠ 0 ∧
      resolveParentLine stW 0 (mkRat 1 20000) =
        Except.error ExportError.unsupportedAttachment :=
  ⟨by decide, by decide, by rfl⟩

/-- C7 (amended): with recorded proximal and distal lines for the parent
segment, a fraction strictly within `1e-4` of `1.0` resolves to the parent's
distal line; a fraction *exactly* `0.0` resolves to the parent's proximal
line; and every other fraction — including nonzero fractions within `1e-4`
of `0.0` — fails with `UnsupportedAttachmentError`, never silently
truncating. -/
theorem c7_attachment_resolution (st : ExportState) (pid pl dl : Nat) (f : Rat)
    (hd : st.line_index_vs_distals.lookup pid = some dl)
    (hp : st.line_index_vs_proximals.lookup pid = some pl) :
    (rabs (rsub f 1) < mkRat 1 10000 →
      resolveParentLine st pid f = Except.ok (dl : Int)) ∧
    (f = 0 → resolveParentLine st pid f = Except.ok (pl : Int)) ∧
    (¬rabs (rsub f 1) < mkRat 1 10000 → f ≠ 0 →
      resolveParentLine st pid f =
        Except.error ExportError.unsupportedAttachment) := by
  have heps : mkRat 1 10000 = (1 : Rat) / 10000 := by
    rw [Rat.mkRat_eq_divInt, Rat.divInt_eq_div]
    norm_num
  refine ⟨?_, ?_, ?_⟩
  · intro hnear
    have hnear' : |f - 1| < (1 : Rat) / 10000 := by
      rw [rabs_eq, rsub_eq, heps] at hnear
      exact hnear
    have hnotlt : ¬f < mkRat 1 10000 := by
      rw [heps]
      obtain ⟨hlo, -⟩ := abs_lt.mp hnear'
      intro hlt
      linarith
    unfold resolveParentLine
    dsimp only
    rw [if_neg hnotlt, if_pos hnear, if_pos rfl, hd]
  · rintro rfl
    unfold resolveParentLine
    dsimp only
    rw [if_pos (show (0 : Rat) < mkRat 1 10000 by decide),
      if_neg (show ¬rabs (rsub 0 1) < mkRat 1 10000 by decide),
      if_neg (show ¬(0 : Rat) = 1 by decide), if_pos rfl, hp]
  · intro hnear hne
    unfold resolveParentLine
    dsimp only
    by_cases hlt : f < mkRat 1 10000
    · rw [if_pos hlt,
        if_neg (show ¬rabs (rsub 0 1) < mkRat 1 10000 by decide),
        if_neg (show ¬(0 : Rat) = 1 by decide), if_neg hne]
    · have hne1 : ¬f = 1 := by
        intro h1
        rw [h1] at hnear
        exact hnear (by decide)
      rw [if_neg hlt, if_neg hnear, if_neg hne1, if_neg hne]

/-- Witness for C7: near-1, exactly-0 and one-half fractions at `stW`. -/
theorem c7_witness :
    resolveParentLine stW 0 (mkRat 19999 20000) = Except.ok 2 ∧
      resolveParentLine stW 0 0 = Except.ok 1 ∧
      resolveParentLine stW 0 (mkRat 1 2) =
        Except.error ExportError.unsupportedAttachment :=
  ⟨(c7_attachment_resolution stW 0 1 2 (mkRat 19999 20000) (by decide)
      (by decide)).1 (by decide),
    (c7_attachment_resolution stW 0 1 2 0 (by decide) (by decide)).2.1 rfl,
    (c7_attachment_resolution stW 0 1 2 (mkRat 1 2) (by decide)
      (by decide)).2.2 (by decide) (by decide)⟩

/-! ## Claim C8 -/

/-- C8: with the three canonical groups gathered in the fixed order
`soma_group` (type 1), `dendrite_group` (type 3), `axon_group` (type 2), if
the number of segments visited across exactly those groups differs from the
cell's total segment count the conversion fails with
`IncompleteGroupCoverageError` and no line is output; otherwise it completes,
outputting exactly the gathered lines of the three groups in order. -/
theorem c8_group_coverage_check (cell : ExpCell) (st1 st2 st3 : ExportState)
    (l1 l2 l3 : List SWCLine) (i1 i2 i3 : List Nat)
    (h1 : get_lines_for_seg_group cell "soma_group" 1 initExportState =
      Except.ok (st1, l1, i1))
    (h2 : get_lines_for_seg_group cell "dendrite_group" 3 st1 =
      Except.ok (st2, l2, i2))
    (h3 : get_lines_for_seg_group cell "axon_group" 2 st2 =
      Except.ok (st3, l3, i3)) :
    (cell.segments.length ≠ i1.length + i2.length + i3.length →
      convert_cell_to_swc cell =
        Except.error ConvertError.incompleteGroupCoverage) ∧
    (cell.segments.length = i1.length + i2.length + i3.length →
      convert_cell_to_swc cell = Except.ok (l1 ++ l2 ++ l3)) := by
  unfold convert_cell_to_swc
  rw [h1]
  dsimp only [Except.mapError, Bind.bind, Except.bind]
  rw [h2]
  dsimp only [Except.mapError, Bind.bind, Except.bind]
  rw [h3]
  dsimp only [Except.mapError, Bind.bind, Except.bind]
  constructor
  · intro hne
    rw [if_pos hne]
  · intro heq
    rw [if_neg (not_not_intro heq)]
    rfl

/-- Witness for C8: the under-covered cell aborts, the fully covered cell
outputs its three lines. -/
theorem c8_witness :
    convert_cell_to_swc cellBad =
        Except.error ConvertError.incompleteGroupCoverage ∧
      convert_cell_to_swc cellOK =
        Except.ok
          [⟨1, 1, 0, 0, 0, 10, -1⟩, ⟨2, 1, 0, 10, 0, 10, 1⟩,
            ⟨3, 1, 0, -10, 0, 10, 2⟩] :=
  ⟨(c8_group_coverage_check cellBad ⟨3, [(0, 2)], [(0, 1)]⟩
      ⟨3, [(0, 2)], [(0, 1)]⟩ ⟨3, [(0, 2)], [(0, 1)]⟩
      [⟨1, 1, 0, 0, 0, 10, -1⟩, ⟨2, 1, 0, 10, 0, 10, 1⟩] [] [] [0] [] []
      (by rfl) (by rfl) (by rfl)).1 (by decide),
    (c8_group_coverage_check cellOK ⟨4, [(1, 3), (0, 2)], [(0, 1)]⟩
      ⟨4, [(1, 3), (0, 2)], [(0, 1)]⟩ ⟨4, [(1, 3), (0, 2)], [(0, 1)]⟩
      [⟨1, 1, 0, 0, 0, 10, -1⟩, ⟨2, 1, 0, 10, 0, 10, 1⟩,
        ⟨3, 1, 0, -10, 0, 10, 2⟩] [] [] [0, 1] [] []
      (by rfl) (by rfl) (by rfl)).2 (by decide)⟩

end SwcNeuroml
